import Mathlib

set_option maxRecDepth 200000

/-!
Verification of the `mssql_global_backup` Ansible module
(`src/library/mssql_global_backup.py`).

The module's core is embedded shallowly:

* SQL text generation (`quoteName`, `BackupJob.backup_step_sql`) is embedded
  as pure string functions, reproducing the Python format strings byte for
  byte (the module's triple-quoted template, including its `\r` characters
  and the indentation captured by the closing quotes).
* The external `sqlcmd` collaborator is modelled by a `Server` record holding
  the four catalog tables the module queries (`sysjobs`, `sysjobsteps`,
  `sysschedules`, `sysjobschedules`); each probe reproduces the module's
  post-processing of query output (`result_filter`: split on newline, drop
  empty pieces, strip each piece) and each mutation script is modelled by its
  documented effect on those tables (guarded create, else update).
* CPython string identity (`is`), which the module uses to compare parameter
  strings against literals, is modelled by `PyStr`: a string value together
  with an `interned` flag.  Compile-time constants made of identifier
  characters are interned by CPython, so two interned equal strings are the
  same object; a string parsed from the module's JSON arguments at run time
  is a fresh object and is never identical to a literal.  `pyIs` is the
  resulting identity test.  All `is` comparisons in the module pit a
  parameter against an interned literal, for which this model is exact.
* Failures (`module.fail_json`, Python exceptions, non-zero `sqlcmd` exits
  raised by `check_call`/`check_output`) are modelled with `Except PyErr`.
  A run returns its final `Server` even on failure, since the SQL mutations
  issued before the failure persist.
-/

/-- A CPython string object: its text and whether it is interned.  Module
parameters parsed from JSON at run time are not interned; in-module literals
consisting of identifier characters are. -/
structure PyStr where
  val : String
  interned : Bool
deriving DecidableEq, Repr

/-- An interned in-module string literal. -/
def lit (s : String) : PyStr := ⟨s, true⟩

/-- CPython `is` between a string object and an interned literal: identity
holds exactly when both are interned (interning canonicalises) and the texts
agree; a fresh run-time string is never identical to a literal. -/
def pyIs (a b : PyStr) : Bool := a.interned && b.interned && a.val == b.val

/-- The apostrophe character, built numerically. -/
def sqChar : Char := Char.ofNat 39

/-- The apostrophe as a one-character string. -/
def sqS : String := String.singleton sqChar

/-- Python `str.replace(old, new)` for a one-character pattern: every
occurrence of the character is replaced. -/
def pyReplace1 (s : String) (c : Char) (rep : String) : String :=
  String.mk (s.data.flatMap fun x => if x = c then rep.data else [x])

/-- Numeric value of a digit string, as the server's implicit string-to-int
conversion computes it (`int('013000') = 13000`). -/
def digitsToNat (s : String) : Nat :=
  s.data.foldl (fun n c => if c.isDigit then n * 10 + (c.toNat - 48) else n) 0

/-- Python `str.lstrip('0')`: drop every leading `'0'`. -/
def pyLstrip0 (s : String) : String := String.mk (s.data.dropWhile (fun c => c == '0'))

/-- The whitespace characters removed by Python `str.strip()`. -/
def isPySpace (c : Char) : Bool :=
  c == ' ' || c == '\t' || c == '\n' || c == '\r' || c == '\x0b' || c == '\x0c'

/-- Python `str.strip()` on a character list. -/
def pyStripL (l : List Char) : List Char :=
  ((l.dropWhile isPySpace).reverse.dropWhile isPySpace).reverse

/-- Python `str.split("\n")` on a character list. -/
def splitNlL : List Char → List (List Char)
  | [] => [[]]
  | c :: cs =>
    if c = '\n' then [] :: splitNlL cs
    else
      match splitNlL cs with
      | [] => [[c]]
      | p :: ps => (c :: p) :: ps

/-- Python `"\n".join` on character lists. -/
def joinNlL : List (List Char) → List Char
  | [] => []
  | [p] => p
  | p :: q :: ps => p ++ '\n' :: joinNlL (q :: ps)

/-- Does `needle` occur at the start of `hay`? -/
def startsWithL : List Char → List Char → Bool
  | [], _ => true
  | _ :: _, [] => false
  | a :: as, b :: bs => a == b && startsWithL as bs

/-- Python substring test `needle in hay` on character lists. -/
def substrL (needle : List Char) : List Char → Bool
  | [] => startsWithL needle []
  | c :: cs => startsWithL needle (c :: cs) || substrL needle cs

/-- Does the list contain a newline immediately followed by a space?  The
generated backup script always does (its `SELECT` line is indented under the
cursor declaration); the module's normalised query output never does. -/
def hasNlSp : List Char → Bool
  | [] => false
  | [_] => false
  | a :: b :: cs => (a == '\n' && b == ' ') || hasNlSp (b :: cs)

/-- The failure outcomes of a run: a `module.fail_json` abort, a Python
`TypeError` (from `'%d' %` applied to a string), the generator's
missing-databases exception, the quoting helper's unsupported-style
exception, and a non-zero `sqlcmd` exit raised by `check_call`. -/
inductive PyErr where
  | failJson (msg : String)
  | typeError
  | missingDatabases (msg : String)
  | unsupportedQuoteChar (msg : String)
  | sqlError
deriving DecidableEq, Repr

/-- `quoteName(name, quote_char)`: bracket style for `'['`/`']'` doubling the
closing bracket, national-character literal style for the apostrophe doubling
the apostrophe, exception otherwise. -/
def quoteName (name : String) (quote_char : String) : Except PyErr String :=
  if quote_char == "[" || quote_char == "]" then
    .ok ("[" ++ pyReplace1 name ']' "]]" ++ "]")
  else if quote_char == sqS then
    .ok ("N" ++ sqS ++ pyReplace1 name sqChar (sqS ++ sqS) ++ sqS)
  else
    .error (.unsupportedQuoteChar
      ("Unsupported quote_char " ++ quote_char ++ ", must be [ or ] or " ++ sqS))

/-- The literal-style quotation `quoteName name "'"` always produces, used by
every call site in the module. -/
def quoteNameLit (name : String) : String :=
  "N" ++ sqS ++ pyReplace1 name sqChar (sqS ++ sqS) ++ sqS

/-- Python `','.join`. -/
def joinComma (l : List String) : String := String.intercalate "," l

/-- The per-row destination path expression of the generated script:
`'path'`, or `'path/' + @name` when backups are stored per database. -/
def filePathExpr (per_database : Bool) (path : String) : String :=
  if per_database then sqS ++ path ++ "/" ++ sqS ++ " + @name" else sqS ++ path ++ sqS

/-- The per-row file name expression of the generated script.  Mirrors the
source exactly: the run-time date stamp is appended when `rotate == 0`. -/
def fileNameExpr (rotate : Int) : String :=
  if rotate == 0 then "@name + " ++ sqS ++ "_" ++ sqS ++ " + @fileDate" else "@name"

/-- The fixed text of the backup script template up to the interpolated
filter clause (the module's triple-quoted string starts with a newline and
ends each line with an explicit carriage return). -/
def tmplA : String :=
  "\nDECLARE @name VARCHAR(50);\r\nDECLARE @path VARCHAR(256);\r\nDECLARE @fileName VARCHAR(256);\r\nDECLARE @fileDate VARCHAR(20);\r\nSET @fileDate = (Select Replace(Convert(nvarchar, GetDate(), 111), "
  ++ sqS ++ "/" ++ sqS ++ ", " ++ sqS ++ sqS ++ ") + " ++ sqS ++ "_" ++ sqS
  ++ " + Replace(Convert(nvarchar, GetDate(), 108), " ++ sqS ++ ":" ++ sqS ++ ", "
  ++ sqS ++ sqS ++ "));\r\nDECLARE db_cursor CURSOR FOR\r\n    SELECT name FROM master.sys.databases WHERE "

/-- Template text between the filter clause and the path expression. -/
def tmplB : String :=
  ";\r\nOPEN db_cursor;\r\nFETCH NEXT FROM db_cursor INTO @name;\r\nWHILE @@FETCH_STATUS = 0\r\nBEGIN\r\n    SET @fileName = "

/-- Template text between the path expression and the file name expression. -/
def tmplC : String := " + " ++ sqS ++ "/" ++ sqS ++ " + "

/-- Template text after the file name expression, up to the closing
triple quote (whose indentation leaves eight trailing spaces). -/
def tmplD : String :=
  " + " ++ sqS ++ ".bak" ++ sqS
  ++ ";\r\n    BACKUP DATABASE @name TO DISK=@fileName WITH COMPRESSION, NOFORMAT, NOINIT, SKIP, NOREWIND, NOUNLOAD, STATS=10;\r\nEND\r\nCLOSE db_cursor;\r\nDEALLOCATE db_cursor;\r\nGO\n        "

/-- The generated script for a given filter clause, path expression and file
name expression. -/
def scriptTemplate (whereC file_path file_name : String) : String :=
  tmplA ++ whereC ++ tmplB ++ file_path ++ tmplC ++ file_name ++ tmplD

/-- `BackupJob.backup_step_sql`: the canonical backup script for the
configuration.  `ty` is the module's `type` option (`full`/`logs`); the
source never reads it. -/
def backup_step_sql (incl excl : List String) (per_database : Bool) (rotate : Int)
    (ty : String) (path : String) : Except PyErr String :=
  let databases := if incl.length > 0 then incl.map quoteNameLit else excl.map quoteNameLit
  let whereC :=
    if incl.length > 0 then "name IN (" ++ joinComma databases ++ ")"
    else "name NOT IN (" ++ joinComma databases ++ ")"
  if databases.length == 0 then
    .error (.missingDatabases ("missing databases: " ++ joinComma databases))
  else
    .ok (scriptTemplate whereC (filePathExpr per_database path) (fileNameExpr rotate))

/-- A row of `dbo.sysjobsteps` joined with its job's name. -/
structure JobStepRow where
  job : String
  step : String
  command : String
deriving DecidableEq, Repr

/-- A row of `dbo.sysschedules`, with the fields the module queries, as the
server stores them (`active_start_time` is an integer, so its leading zeros
are gone). -/
structure SchedRow where
  enabled : Nat
  freq_type : Nat
  freq_interval : Int
  active_start_time : Nat
deriving DecidableEq, Repr

/-- The catalog state of the SQL Agent on the target server. -/
structure Server where
  jobs : List String
  steps : List JobStepRow
  schedules : List (String × SchedRow)
  attachments : List (String × String)
deriving DecidableEq, Repr

/-- `BackupJob.job_exists`: name lookup in `dbo.sysjobs`. -/
def job_exists (jobs : List String) (name : String) : Bool := jobs.contains name

/-- `BackupJob.job_create`: the guarded `sp_add_job` script (no-op when a job
of that name exists). -/
def job_create (s : Server) (name : String) : Server :=
  if s.jobs.contains name then s else { s with jobs := s.jobs ++ [name] }

/-- The `command` column returned by the step probe's query for the given
job and step names. -/
def stepRows (steps : List JobStepRow) (job step : String) : List String :=
  (steps.filter (fun r => r.job == job && r.step == step)).map (fun r => r.command)

/-- `BackupJob.result_filter` on raw `sqlcmd` output: split on newline, drop
empty pieces, strip each piece. -/
def result_filterL (out : List Char) : List (List Char) :=
  ((splitNlL out).filter (fun q => !q.isEmpty)).map pyStripL

/-- `self.step_results`: the probe's query rows, passed through
`result_filter` and re-joined with newlines.  The raw `sqlcmd` output is the
returned command texts separated by newlines. -/
def step_resultsL (steps : List JobStepRow) (job step : String) : List Char :=
  joinNlL (result_filterL (String.intercalate "\n" (stepRows steps job step)).data)

/-- `BackupJob.backup_step_exists`: generates the canonical script (which
may raise) and tests whether it occurs as a substring of `step_results`. -/
def backup_step_exists (steps : List JobStepRow) (job_name : String)
    (incl excl : List String) (per_database : Bool) (rotate : Int)
    (ty path : String) : Except PyErr Bool :=
  match backup_step_sql incl excl per_database rotate ty path with
  | .error e => .error e
  | .ok canonical => .ok (substrL canonical.data (step_resultsL steps job_name "ansible backup step"))

/-- `BackupJob.step_manage`: the guarded `sp_add_jobstep`/`sp_update_jobstep`
script.  Updating replaces the stored command; adding fails (non-zero
`sqlcmd` exit) when the job does not exist. -/
def step_manageL (jobs : List String) (steps : List JobStepRow)
    (job step cmd : String) : Except PyErr (List JobStepRow) :=
  if steps.any (fun r => r.job == job && r.step == step) then
    .ok (steps.map (fun r => if r.job == job && r.step == step then ⟨r.job, r.step, cmd⟩ else r))
  else if jobs.contains job then
    .ok (steps ++ [⟨job, step, cmd⟩])
  else
    .error .sqlError

/-- One `sysschedules` row as `sqlcmd -s,` prints it. -/
def renderSchedRow (r : SchedRow) : String :=
  toString r.enabled ++ "," ++ toString r.freq_type ++ ","
    ++ toString r.freq_interval ++ "," ++ toString r.active_start_time

/-- `BackupJob.schedule_exists`.  `ty` is the frequency-type code string from
the module's schedule table (an interned literal).  When `ty is '1'` the
source rebinds `interval` to the string `'0'`, and the subsequent
`'%d' % interval` raises `TypeError`; this can only be observed when the
query returned rows.  The requested start time is normalised to `"0"` only
when it is *identical* to the literal `'000000'`, otherwise its leading
zeros are stripped. -/
def schedule_exists (rows : List (String × SchedRow)) (ty : PyStr) (interval : Int)
    (start_time : PyStr) : Except PyErr Bool :=
  let results := (rows.filter (fun q => q.1 == "ansible schedule")).map (fun q => renderSchedRow q.2)
  if results.length > 0 then
    if pyIs ty (lit "1") then .error .typeError
    else
      let start := if pyIs start_time (lit "000000") then "0" else pyLstrip0 start_time.val
      .ok (results.contains ("1," ++ ty.val ++ "," ++ toString interval ++ "," ++ start))
  else
    .ok false

/-- `BackupJob.schedule_manage`'s effect on `dbo.sysschedules`: the guarded
`sp_add_schedule`/`sp_update_schedule` script sets the row named
`ansible schedule` to the requested tuple (enabled forced to 1, the
frequency-type code and the start-time string converted to integers by the
server). -/
def updSched (ty : PyStr) (interval : Int) (start_time : PyStr)
    (rows : List (String × SchedRow)) : List (String × SchedRow) :=
  let row : SchedRow := ⟨1, digitsToNat ty.val, interval, digitsToNat start_time.val⟩
  if rows.any (fun q => q.1 == "ansible schedule") then
    rows.map (fun q => if q.1 == "ansible schedule" then (q.1, row) else q)
  else
    rows ++ [("ansible schedule", row)]

/-- `BackupJob.schedule_attached`: does the `sysjobschedules` join return a
row for the job and the `ansible schedule`? -/
def schedule_attached (att : List (String × String)) (job : String) : Bool :=
  att.any (fun q => q.1 == job && q.2 == "ansible schedule")

/-- The module parameters relevant to the reconciliation (after the argument
layer applied defaults).  `state` and `schedule_start_time` are `PyStr`
because the source compares them with `is`: a defaulted value is the interned
in-module literal, a caller-supplied value is a fresh run-time string.
`rotate_type` and the login options are parsed but never read by the
reconciliation and are omitted. -/
structure Params where
  name : String
  state : PyStr
  path : String
  ty : String
  rotate : Int
  per_database : Bool
  incl : List String
  excl : List String
  schedule_type : String
  schedule_interval : Int
  schedule_start_time : PyStr
deriving DecidableEq, Repr

/-- The module's `schedule_types` table, mapping the symbolic schedule kind
to the server frequency-type code.  The values are in-module literals, hence
interned. -/
def schedule_types (k : String) : PyStr :=
  if k == "once" then lit "1"
  else if k == "daily" then lit "4"
  else if k == "weekly" then lit "8"
  else if k == "monthly" then lit "16"
  else if k == "onstart" then lit "64"
  else lit "128"

/-- The choices validation `AnsibleModule` performs before the reconciliation
runs (an invalid choice aborts the run before any query or mutation). -/
def validChoices (p : Params) : Bool :=
  ["absent", "present", "enabled", "disabled"].contains p.state.val
    && ["full", "logs"].contains p.ty
    && ["once", "daily", "weekly", "monthly", "onstart", "idle"].contains p.schedule_type

/-- The effective exclude list handed to `BackupJob`: the protected system
databases unioned with the caller's excludes.  Python builds this as a `set`,
whose iteration order is unspecified; it is modelled here in
protected-first order (no proved theorem depends on the order). -/
def effExclude (p : Params) : List String :=
  ["master", "model", "msdb", "tempdb"] ++ p.excl.filter (fun x => !(["master", "model", "msdb", "tempdb"].contains x))

/-- The job segment of `main`: the state checks against the existing job
(identity comparisons against interned literals) and the guarded creation.
Returns the new state and either a `fail_json` abort or whether `changed`
was set. -/
def jobStage (p : Params) (s : Server) : Server × Except PyErr Bool :=
  if job_exists s.jobs p.name then
    if pyIs p.state (lit "absent") then (s, .error (.failJson "delete not implemented"))
    else if pyIs p.state (lit "enabled") then (s, .error (.failJson "enable not implemented"))
    else if pyIs p.state (lit "disabled") then (s, .error (.failJson "disable not implemented"))
    else (s, .ok false)
  else if pyIs p.state (lit "present") then (job_create s p.name, .ok true)
  else (s, .ok false)

/-- The backup-step segment of `main`: probe, and on mismatch manage
(`backup_step_manage` = `step_manage` then re-probe); `changed` is set iff
the re-probe succeeds.  The commented-out `fail_json` of the source means a
false re-probe is not an error. -/
def stepStage (p : Params) (s : Server) : Server × Except PyErr Bool :=
  match backup_step_exists s.steps p.name p.incl (effExclude p) p.per_database p.rotate p.ty p.path with
  | .error e => (s, .error e)
  | .ok true => (s, .ok false)
  | .ok false =>
    match backup_step_sql p.incl (effExclude p) p.per_database p.rotate p.ty p.path with
    | .error e => (s, .error e)
    | .ok canonical =>
      match step_manageL s.jobs s.steps p.name "ansible backup step" canonical with
      | .error e => (s, .error e)
      | .ok steps2 =>
        match backup_step_exists steps2 p.name p.incl (effExclude p) p.per_database p.rotate p.ty p.path with
        | .error e => ({ s with steps := steps2 }, .error e)
        | .ok b => ({ s with steps := steps2 }, .ok b)

/-- The schedule segment of `main`: probe, and on mismatch manage
(`schedule_manage` mutates then re-probes); `changed` is set iff the
re-probe succeeds. -/
def schedStage (p : Params) (s : Server) : Server × Except PyErr Bool :=
  let ty := schedule_types p.schedule_type
  match schedule_exists s.schedules ty p.schedule_interval p.schedule_start_time with
  | .error e => (s, .error e)
  | .ok true => (s, .ok false)
  | .ok false =>
    let rows2 := updSched ty p.schedule_interval p.schedule_start_time s.schedules
    match schedule_exists rows2 ty p.schedule_interval p.schedule_start_time with
    | .error e => ({ s with schedules := rows2 }, .error e)
    | .ok b => ({ s with schedules := rows2 }, .ok b)

/-- The attachment segment of `main`: probe, and if unattached run
`sp_attach_schedule` (which fails with a non-zero exit when the job or the
schedule does not exist) and re-probe. -/
def attachStage (p : Params) (s : Server) : Server × Except PyErr Bool :=
  if schedule_attached s.attachments p.name then (s, .ok false)
  else if s.jobs.contains p.name && s.schedules.any (fun q => q.1 == "ansible schedule") then
    let s2 := { s with attachments := s.attachments ++ [(p.name, "ansible schedule")] }
    (s2, .ok (schedule_attached s2.attachments p.name))
  else
    (s, .error .sqlError)

/-- The structured result `main` reports through `exit_json`. -/
structure RunResult where
  changed : Bool
  name : String
  state : PyStr
deriving DecidableEq, Repr

/-- `main`: choices validation, then the four reconciliation segments in
order, accumulating `changed`.  The final server state is returned even when
the run aborts, since mutations issued before the abort persist. -/
def pymain (p : Params) (s0 : Server) : Server × Except PyErr RunResult :=
  if !validChoices p then (s0, .error (.failJson "value of parameter is not in choices"))
  else
    match jobStage p s0 with
    | (s1, .error e) => (s1, .error e)
    | (s1, .ok c1) =>
      match stepStage p s1 with
      | (s2, .error e) => (s2, .error e)
      | (s2, .ok c2) =>
        match schedStage p s2 with
        | (s3, .error e) => (s3, .error e)
        | (s3, .ok c3) =>
          match attachStage p s3 with
          | (s4, .error e) => (s4, .error e)
          | (s4, .ok c4) => (s4, .ok ⟨c1 || c2 || c3 || c4, p.name, p.state⟩)

/-- The empty server: no jobs, steps, schedules or attachments. -/
def srvEmpty : Server := ⟨[], [], [], []⟩

/-- A defaulted configuration: present, daily backup of all user databases.
`state` and `schedule_start_time` are the interned defaults of the argument
spec. -/
def pDefault : Params :=
  { name := "nightly", state := lit "present", path := "/var/opt/mssql/backups"
    ty := "full", rotate := 0, per_database := true, incl := [], excl := []
    schedule_type := "daily", schedule_interval := 1, schedule_start_time := lit "000000" }

/-- The defaulted configuration with a once schedule. -/
def pOnce : Params := { pDefault with schedule_type := "once" }

/-- The defaulted configuration with the lifecycle state `absent`, supplied
by the caller and hence a fresh (non-interned) run-time string. -/
def pAbsent : Params := { pDefault with state := ⟨"absent", false⟩ }

/-- A server that already carries the job `nightly` and nothing else. -/
def srvJobOnly : Server := ⟨["nightly"], [], [], []⟩

/-- Is the last character a newline? -/
def lastIsNl (l : List Char) : Bool :=
  match l.getLast? with
  | some c => c == '\n'
  | none => false

/-- Is the first character a space? -/
def headIsSp (l : List Char) : Bool :=
  match l.head? with
  | some c => c == ' '
  | none => false

-- Decidable equality for run outcomes, used to evaluate the model at
-- concrete inputs.
deriving instance DecidableEq for Except

theorem hasNlSp_cons_cons (a b : Char) (l : List Char) :
    hasNlSp (a :: b :: l) = ((a == '\n' && b == ' ') || hasNlSp (b :: l)) := rfl

theorem hasNlSp_append (a b : List Char) :
    hasNlSp (a ++ b) = (hasNlSp a || (lastIsNl a && headIsSp b) || hasNlSp b) := by
  induction a with
  | nil => simp [hasNlSp, lastIsNl]
  | cons x xs ih =>
    cases xs with
    | nil =>
      cases b with
      | nil => simp [hasNlSp, lastIsNl, headIsSp]
      | cons y bs =>
        show hasNlSp (x :: y :: bs) = _
        rw [hasNlSp_cons_cons]
        simp [hasNlSp, lastIsNl, headIsSp]
    | cons x' xs' =>
      have hlast : lastIsNl (x :: x' :: xs') = lastIsNl (x' :: xs') := by
        simp [lastIsNl, List.getLast?_cons_cons]
      have h1 : hasNlSp ((x :: x' :: xs') ++ b) = ((x == '\n' && x' == ' ') || hasNlSp ((x' :: xs') ++ b)) := rfl
      rw [h1, ih, hasNlSp_cons_cons, hlast]
      cases x == '\n' && x' == ' ' <;> cases hasNlSp (x' :: xs') <;>
        cases lastIsNl (x' :: xs') && headIsSp b <;> cases hasNlSp b <;> rfl

theorem startsWithL_split (n : List Char) : ∀ h : List Char, startsWithL n h = true → ∃ t, h = n ++ t := by
  induction n with
  | nil => exact fun h _ => ⟨h, rfl⟩
  | cons a as ih =>
    intro h hs
    cases h with
    | nil => simp [startsWithL] at hs
    | cons b bs =>
      simp only [startsWithL, Bool.and_eq_true, beq_iff_eq] at hs
      obtain ⟨t, ht⟩ := ih bs hs.2
      exact ⟨t, by simp [hs.1, ht]⟩

theorem substrL_split (n : List Char) : ∀ h : List Char, substrL n h = true → ∃ u v, h = u ++ n ++ v := by
  intro h
  induction h with
  | nil =>
    intro hs
    cases n with
    | nil => exact ⟨[], [], rfl⟩
    | cons a as => simp [substrL, startsWithL] at hs
  | cons c cs ih =>
    intro hs
    simp only [substrL, Bool.or_eq_true] at hs
    rcases hs with hs | hs
    · obtain ⟨t, ht⟩ := startsWithL_split n (c :: cs) hs
      exact ⟨[], t, by simp [ht]⟩
    · obtain ⟨u, v, huv⟩ := ih hs
      exact ⟨c :: u, v, by simp [huv]⟩

theorem hasNlSp_substr (n h : List Char) (hsub : substrL n h = true)
    (hn : hasNlSp n = true) : hasNlSp h = true := by
  obtain ⟨u, v, huv⟩ := substrL_split n h hsub
  subst huv
  rw [List.append_assoc, hasNlSp_append, hasNlSp_append, hn]
  simp

theorem splitNlL_ne_nil (l : List Char) : splitNlL l ≠ [] := by
  cases l with
  | nil => simp [splitNlL]
  | cons c cs =>
    simp only [splitNlL]
    by_cases hc : c = '\n'
    · simp [hc]
    · simp only [hc, if_false]
      cases splitNlL cs with
      | nil => simp
      | cons p ps => simp

theorem splitNlL_no_nl (l : List Char) : ∀ p ∈ splitNlL l, '\n' ∉ p := by
  induction l with
  | nil => intro p hp; simp [splitNlL] at hp; simp [hp]
  | cons c cs ih =>
    intro p hp
    simp only [splitNlL] at hp
    by_cases hc : c = '\n'
    · simp only [hc, if_true, List.mem_cons] at hp
      rcases hp with hp | hp
      · simp [hp]
      · exact ih p hp
    · simp only [hc, if_false] at hp
      cases hsp : splitNlL cs with
      | nil => exact absurd hsp (splitNlL_ne_nil cs)
      | cons q qs =>
        rw [hsp] at hp
        rcases List.mem_cons.mp hp with hp | hp
        · subst hp
          intro hmem
          rcases List.mem_cons.mp hmem with hx | hx
          · exact hc hx.symm
          · exact ih q (hsp ▸ List.mem_cons_self q qs) hx
        · exact ih p (hsp ▸ List.mem_cons_of_mem q hp)

theorem mem_of_mem_dropWhile {α : Type} (p : α → Bool) (l : List α) (x : α)
    (hx : x ∈ l.dropWhile p) : x ∈ l := by
  induction l with
  | nil => simp [List.dropWhile] at hx
  | cons c cs ih =>
    rw [List.dropWhile_cons] at hx
    by_cases hc : p c = true
    · simp only [hc, if_true] at hx
      exact List.mem_cons_of_mem c (ih hx)
    · simp only [hc, if_false] at hx
      exact hx

theorem mem_of_mem_pyStripL (l : List Char) (x : Char) (hx : x ∈ pyStripL l) : x ∈ l := by
  unfold pyStripL at hx
  rw [List.mem_reverse] at hx
  have h1 := mem_of_mem_dropWhile isPySpace (l.dropWhile isPySpace).reverse x hx
  rw [List.mem_reverse] at h1
  exact mem_of_mem_dropWhile isPySpace l x h1

theorem head_dropWhile_false {α : Type} (p : α → Bool) (l : List α) (c : α) (r : List α)
    (h : l.dropWhile p = c :: r) : p c = false := by
  induction l with
  | nil => simp [List.dropWhile] at h
  | cons a as ih =>
    rw [List.dropWhile_cons] at h
    by_cases ha : p a = true
    · simp only [ha, if_true] at h
      exact ih h
    · simp only [ha, if_false] at h
      cases h
      exact Bool.eq_false_iff.mpr ha

theorem pyStripL_head (l : List Char) (c : Char) (r : List Char)
    (h : pyStripL l = c :: r) : isPySpace c = false := by
  unfold pyStripL at h
  have hsuf : ((l.dropWhile isPySpace).reverse.dropWhile isPySpace)
      <:+ (l.dropWhile isPySpace).reverse := List.dropWhile_suffix isPySpace
  obtain ⟨u, hu⟩ := hsuf
  have hpre : (l.dropWhile isPySpace) = ((l.dropWhile isPySpace).reverse.dropWhile isPySpace).reverse ++ u.reverse := by
    have := congrArg List.reverse hu
    rw [List.reverse_append, List.reverse_reverse] at this
    exact this.symm
  rw [h] at hpre
  exact head_dropWhile_false isPySpace l c (r ++ u.reverse) (by rw [hpre]; simp)

theorem hasNlSp_of_no_nl (l : List Char) (h : '\n' ∉ l) : hasNlSp l = false := by
  induction l with
  | nil => rfl
  | cons a as ih =>
    cases as with
    | nil => rfl
    | cons b m =>
      rw [hasNlSp_cons_cons]
      have ha : (a == '\n') = false := by
        simp only [beq_eq_false_iff_ne, ne_eq]
        intro he
        exact h (he ▸ List.mem_cons_self a (b :: m))
      rw [ha, Bool.false_and, Bool.false_or]
      exact ih (fun hm => h (List.mem_cons_of_mem a hm))

theorem joinNlL_cons_cons (p q : List Char) (ps : List (List Char)) :
    joinNlL (p :: q :: ps) = p ++ '\n' :: joinNlL (q :: ps) := rfl

theorem joinNl_no_nlsp (ps : List (List Char))
    (h1 : ∀ p ∈ ps, '\n' ∉ p)
    (h2 : ∀ p ∈ ps, ∀ c r, p = c :: r → isPySpace c = false) :
    hasNlSp (joinNlL ps) = false ∧ headIsSp (joinNlL ps) = false := by
  induction ps with
  | nil => exact ⟨rfl, rfl⟩
  | cons p ps ih =>
    have hp1 : '\n' ∉ p := h1 p (List.mem_cons_self p ps)
    have hp2 : ∀ c r, p = c :: r → isPySpace c = false :=
      h2 p (List.mem_cons_self p ps)
    have hheadp : headIsSp p = false := by
      cases hc : p with
      | nil => rfl
      | cons c r =>
        show (c == ' ') = false
        have := hp2 c r hc
        simp only [beq_eq_false_iff_ne, ne_eq]
        intro he
        rw [he] at this
        simp [isPySpace] at this
    cases ps with
    | nil => exact ⟨hasNlSp_of_no_nl p hp1, hheadp⟩
    | cons q qs =>
      obtain ⟨ihA, ihB⟩ := ih (fun x hx => h1 x (List.mem_cons_of_mem p hx))
        (fun x hx => h2 x (List.mem_cons_of_mem p hx))
      rw [joinNlL_cons_cons]
      have hnl : hasNlSp ('\n' :: joinNlL (q :: qs)) = false := by
        cases hj : joinNlL (q :: qs) with
        | nil => rfl
        | cons y m =>
          rw [hasNlSp_cons_cons]
          have hy : (y == ' ') = false := by
            have := ihB
            rw [hj] at this
            exact this
          rw [hy, Bool.and_false, Bool.false_or, ← hj, ihA]
      constructor
      · rw [hasNlSp_append, hasNlSp_of_no_nl p hp1, hnl]
        have hsp : headIsSp ('\n' :: joinNlL (q :: qs)) = false := rfl
        rw [hsp, Bool.and_false]
        rfl
      · cases hc : p with
        | nil => rfl
        | cons c r =>
          show headIsSp (c :: (r ++ '\n' :: joinNlL (q :: qs))) = false
          show (c == ' ') = false
          rw [hc] at hheadp
          exact hheadp

theorem result_filter_join_no_nlsp (out : List Char) :
    hasNlSp (joinNlL (result_filterL out)) = false := by
  refine (joinNl_no_nlsp (result_filterL out) ?_ ?_).1
  · intro p hp
    unfold result_filterL at hp
    rw [List.mem_map] at hp
    obtain ⟨q, hq, hpq⟩ := hp
    rw [List.mem_filter] at hq
    subst hpq
    intro hmem
    exact splitNlL_no_nl out q hq.1 (mem_of_mem_pyStripL q '\n' hmem)
  · intro p hp c r hpc
    unfold result_filterL at hp
    rw [List.mem_map] at hp
    obtain ⟨q, _, hpq⟩ := hp
    subst hpq
    exact pyStripL_head q c r hpc

theorem hasNlSp_tmplA : hasNlSp tmplA.data = true := by decide

theorem scriptTemplate_hasNlSp (w fp fn : String) :
    hasNlSp (scriptTemplate w fp fn).data = true := by
  unfold scriptTemplate
  simp only [String.data_append, List.append_assoc]
  rw [hasNlSp_append, hasNlSp_tmplA]
  rfl

theorem backup_step_sql_shape (incl excl : List String) (pdb : Bool) (rot : Int)
    (ty path c : String) (h : backup_step_sql incl excl pdb rot ty path = .ok c) :
    ∃ w, c = scriptTemplate w (filePathExpr pdb path) (fileNameExpr rot) := by
  unfold backup_step_sql at h
  dsimp only at h
  split at h <;> split at h <;>
    first
      | exact ⟨_, ((Except.ok.injEq _ _).mp h).symm⟩
      | exact absurd h (by simp)

theorem canonical_hasNlSp (incl excl : List String) (pdb : Bool) (rot : Int)
    (ty path c : String) (h : backup_step_sql incl excl pdb rot ty path = .ok c) :
    hasNlSp c.data = true := by
  obtain ⟨w, rfl⟩ := backup_step_sql_shape incl excl pdb rot ty path c h
  exact scriptTemplate_hasNlSp w (filePathExpr pdb path) (fileNameExpr rot)

theorem backup_step_exists_ne_ok_true (steps : List JobStepRow) (job_name : String)
    (incl excl : List String) (pdb : Bool) (rot : Int) (ty path : String) :
    backup_step_exists steps job_name incl excl pdb rot ty path ≠ .ok true := by
  unfold backup_step_exists
  cases hsql : backup_step_sql incl excl pdb rot ty path with
  | error e => simp
  | ok c =>
    simp only [ne_eq, Except.ok.injEq]
    intro hsub
    have hcan := canonical_hasNlSp incl excl pdb rot ty path c hsql
    have hhay := result_filter_join_no_nlsp
      (String.intercalate "\n" (stepRows steps job_name "ansible backup step")).data
    have := hasNlSp_substr c.data
      (step_resultsL steps job_name "ansible backup step") hsub hcan
    unfold step_resultsL at this
    rw [hhay] at this
    cases this

theorem pyIs_lit_true_iff (x : PyStr) (a : String) :
    pyIs x (lit a) = true ↔ (x.interned = true ∧ x.val = a) := by
  unfold pyIs lit
  simp

theorem pyIs_lit_false_of_ne (x : PyStr) (a b : String) (h : pyIs x (lit a) = true)
    (hab : a ≠ b) : pyIs x (lit b) = false := by
  rw [pyIs_lit_true_iff] at h
  unfold pyIs lit
  rw [h.2]
  have hb : (a == b) = false := by simp [hab]
  simp [hb]

theorem jobStage_err_state (p : Params) (s s' : Server) (e : PyErr)
    (h : jobStage p s = (s', .error e)) : s' = s := by
  unfold jobStage at h
  split at h
  · split at h
    · exact (Prod.ext_iff.mp h).1.symm
    · split at h
      · exact (Prod.ext_iff.mp h).1.symm
      · split at h
        · exact (Prod.ext_iff.mp h).1.symm
        · exact absurd (Prod.ext_iff.mp h).2 (by simp)
  · split at h
    · exact absurd (Prod.ext_iff.mp h).2 (by simp)
    · exact absurd (Prod.ext_iff.mp h).2 (by simp)

theorem jobStage_rerun (p : Params) (s u : Server) (c : Bool)
    (h : jobStage p s = (u, .ok c)) (t : Server) (ht : t.jobs = u.jobs) :
    jobStage p t = (t, .ok false) := by
  unfold jobStage at h ⊢
  by_cases he : job_exists s.jobs p.name = true
  · rw [if_pos he] at h
    by_cases h1 : pyIs p.state (lit "absent") = true
    · rw [if_pos h1] at h
      exact absurd (Prod.ext_iff.mp h).2 (by simp)
    · rw [if_neg h1] at h
      by_cases h2 : pyIs p.state (lit "enabled") = true
      · rw [if_pos h2] at h
        exact absurd (Prod.ext_iff.mp h).2 (by simp)
      · rw [if_neg h2] at h
        by_cases h3 : pyIs p.state (lit "disabled") = true
        · rw [if_pos h3] at h
          exact absurd (Prod.ext_iff.mp h).2 (by simp)
        · rw [if_neg h3] at h
          have hu : u = s := (Prod.ext_iff.mp h).1.symm
          have hte : job_exists t.jobs p.name = true := by rw [ht, hu]; exact he
          rw [if_pos hte, if_neg h1, if_neg h2, if_neg h3]
  · rw [if_neg he] at h
    by_cases hp : pyIs p.state (lit "present") = true
    · rw [if_pos hp] at h
      have hu : u = job_create s p.name := (Prod.ext_iff.mp h).1.symm
      have hne : s.jobs.contains p.name = false := by
        rw [Bool.not_eq_true] at he
        exact he
      have hte : job_exists t.jobs p.name = true := by
        rw [ht, hu]
        unfold job_exists job_create
        rw [hne]
        simp
      rw [if_pos hte]
      rw [if_neg (by rw [pyIs_lit_false_of_ne p.state "present" "absent" hp (by decide)]; simp)]
      rw [if_neg (by rw [pyIs_lit_false_of_ne p.state "present" "enabled" hp (by decide)]; simp)]
      rw [if_neg (by rw [pyIs_lit_false_of_ne p.state "present" "disabled" hp (by decide)]; simp)]
    · rw [if_neg hp] at h
      have hu : u = s := (Prod.ext_iff.mp h).1.symm
      have hte : ¬ job_exists t.jobs p.name = true := by rw [ht, hu]; exact he
      rw [if_neg hte, if_neg hp]

theorem backup_step_exists_eval (steps : List JobStepRow) (j : String)
    (incl excl : List String) (pdb : Bool) (rot : Int) (ty path c : String)
    (hsql : backup_step_sql incl excl pdb rot ty path = .ok c) :
    backup_step_exists steps j incl excl pdb rot ty path
      = .ok (substrL c.data (step_resultsL steps j "ansible backup step")) := by
  unfold backup_step_exists
  rw [hsql]

theorem substr_canonical_false (steps : List JobStepRow) (j : String)
    (incl excl : List String) (pdb : Bool) (rot : Int) (ty path c : String)
    (hsql : backup_step_sql incl excl pdb rot ty path = .ok c) :
    substrL c.data (step_resultsL steps j "ansible backup step") = false := by
  cases hb : substrL c.data (step_resultsL steps j "ansible backup step") with
  | false => rfl
  | true =>
    exfalso
    apply backup_step_exists_ne_ok_true steps j incl excl pdb rot ty path
    rw [backup_step_exists_eval steps j incl excl pdb rot ty path c hsql, hb]

theorem stepStage_char (p : Params) (s : Server) (c : String)
    (hsql : backup_step_sql p.incl (effExclude p) p.per_database p.rotate p.ty p.path = .ok c) :
    stepStage p s =
      match step_manageL s.jobs s.steps p.name "ansible backup step" c with
      | .ok steps2 => ({ s with steps := steps2 }, .ok false)
      | .error e => (s, .error e) := by
  unfold stepStage
  rw [backup_step_exists_eval s.steps p.name p.incl (effExclude p) p.per_database p.rotate p.ty p.path c hsql]
  rw [substr_canonical_false s.steps p.name p.incl (effExclude p) p.per_database p.rotate p.ty p.path c hsql]
  rw [hsql]
  dsimp only
  cases hm : step_manageL s.jobs s.steps p.name "ansible backup step" c with
  | error e => rfl
  | ok steps2 =>
    dsimp only
    rw [backup_step_exists_eval steps2 p.name p.incl (effExclude p) p.per_database p.rotate p.ty p.path c hsql]
    rw [substr_canonical_false steps2 p.name p.incl (effExclude p) p.per_database p.rotate p.ty p.path c hsql]

theorem stepStage_sqlerr (p : Params) (s : Server) (e : PyErr)
    (hsql : backup_step_sql p.incl (effExclude p) p.per_database p.rotate p.ty p.path = .error e) :
    stepStage p s = (s, .error e) := by
  unfold stepStage backup_step_exists
  rw [hsql]

theorem stepStage_ok_false (p : Params) (s s' : Server) (b : Bool)
    (h : stepStage p s = (s', .ok b)) : b = false := by
  cases hsql : backup_step_sql p.incl (effExclude p) p.per_database p.rotate p.ty p.path with
  | error e =>
    rw [stepStage_sqlerr p s e hsql] at h
    exact absurd (Prod.ext_iff.mp h).2 (by simp)
  | ok c =>
    rw [stepStage_char p s c hsql] at h
    cases hm : step_manageL s.jobs s.steps p.name "ansible backup step" c with
    | error e =>
      rw [hm] at h
      exact absurd (Prod.ext_iff.mp h).2 (by simp)
    | ok steps2 =>
      rw [hm] at h
      have := (Prod.ext_iff.mp h).2
      simp at this
      exact this

theorem step_manageL_any (jobs : List String) (steps : List JobStepRow)
    (j st cmd : String) (steps2 : List JobStepRow)
    (h : step_manageL jobs steps j st cmd = .ok steps2) :
    steps2.any (fun r => r.job == j && r.step == st) = true := by
  unfold step_manageL at h
  split at h
  · have hs2 : steps2 = steps.map (fun r => if r.job == j && r.step == st then ⟨r.job, r.step, cmd⟩ else r) := by
      have := (Except.ok.injEq _ _).mp h
      exact this.symm
    subst hs2
    rw [List.any_map]
    have hfun : ((fun r : JobStepRow => r.job == j && r.step == st) ∘
        (fun r : JobStepRow => if r.job == j && r.step == st then ⟨r.job, r.step, cmd⟩ else r))
        = (fun r : JobStepRow => r.job == j && r.step == st) := by
      funext r
      by_cases hr : (r.job == j && r.step == st) = true
      · simp [Function.comp, hr]
      · simp only [Function.comp, Bool.not_eq_true] at hr ⊢
        rw [hr]
        simp [hr]
    rw [hfun]
    assumption
  · split at h
    · have hs2 : steps2 = steps ++ [⟨j, st, cmd⟩] := ((Except.ok.injEq _ _).mp h).symm
      subst hs2
      simp
    · exact absurd h (by simp)

theorem stepStage_frame (p : Params) (s : Server) :
    (stepStage p s).1.jobs = s.jobs ∧ (stepStage p s).1.schedules = s.schedules
      ∧ (stepStage p s).1.attachments = s.attachments := by
  unfold stepStage
  split
  · exact ⟨rfl, rfl, rfl⟩
  · exact ⟨rfl, rfl, rfl⟩
  · split
    · exact ⟨rfl, rfl, rfl⟩
    · split
      · exact ⟨rfl, rfl, rfl⟩
      · split
        · exact ⟨rfl, rfl, rfl⟩
        · exact ⟨rfl, rfl, rfl⟩

theorem jobStage_frame (p : Params) (s : Server) :
    (jobStage p s).1.steps = s.steps ∧ (jobStage p s).1.schedules = s.schedules
      ∧ (jobStage p s).1.attachments = s.attachments := by
  unfold jobStage job_create
  split
  · split
    · exact ⟨rfl, rfl, rfl⟩
    · split
      · exact ⟨rfl, rfl, rfl⟩
      · split
        · exact ⟨rfl, rfl, rfl⟩
        · exact ⟨rfl, rfl, rfl⟩
  · split
    · split
      · exact ⟨rfl, rfl, rfl⟩
      · exact ⟨rfl, rfl, rfl⟩
    · exact ⟨rfl, rfl, rfl⟩

theorem schedStage_frame (p : Params) (s : Server) :
    (schedStage p s).1.jobs = s.jobs ∧ (schedStage p s).1.steps = s.steps
      ∧ (schedStage p s).1.attachments = s.attachments := by
  unfold schedStage
  dsimp only
  split
  · exact ⟨rfl, rfl, rfl⟩
  · exact ⟨rfl, rfl, rfl⟩
  · split
    · exact ⟨rfl, rfl, rfl⟩
    · exact ⟨rfl, rfl, rfl⟩

theorem attachStage_frame (p : Params) (s : Server) :
    (attachStage p s).1.jobs = s.jobs ∧ (attachStage p s).1.steps = s.steps
      ∧ (attachStage p s).1.schedules = s.schedules := by
  unfold attachStage
  split
  · exact ⟨rfl, rfl, rfl⟩
  · split
    · exact ⟨rfl, rfl, rfl⟩
    · exact ⟨rfl, rfl, rfl⟩

theorem stepStage_err_state (p : Params) (s s' : Server) (e : PyErr)
    (h : stepStage p s = (s', .error e)) : s' = s := by
  cases hsql : backup_step_sql p.incl (effExclude p) p.per_database p.rotate p.ty p.path with
  | error e2 =>
    rw [stepStage_sqlerr p s e2 hsql] at h
    exact (Prod.ext_iff.mp h).1.symm
  | ok c =>
    rw [stepStage_char p s c hsql] at h
    cases hm : step_manageL s.jobs s.steps p.name "ansible backup step" c with
    | error e2 =>
      rw [hm] at h
      exact (Prod.ext_iff.mp h).1.symm
    | ok steps2 =>
      rw [hm] at h
      exact absurd (Prod.ext_iff.mp h).2 (by simp)

theorem stepStage_ok_rerun (p : Params) (s s' : Server) (b : Bool)
    (h : stepStage p s = (s', .ok b)) (t : Server) (ht : t.steps = s'.steps) :
    (stepStage p t).2 = .ok false := by
  cases hsql : backup_step_sql p.incl (effExclude p) p.per_database p.rotate p.ty p.path with
  | error e =>
    rw [stepStage_sqlerr p s e hsql] at h
    exact absurd (Prod.ext_iff.mp h).2 (by simp)
  | ok c =>
    rw [stepStage_char p s c hsql] at h
    cases hm : step_manageL s.jobs s.steps p.name "ansible backup step" c with
    | error e =>
      rw [hm] at h
      exact absurd (Prod.ext_iff.mp h).2 (by simp)
    | ok steps2 =>
      rw [hm] at h
      have hs' : s' = { s with steps := steps2 } := (Prod.ext_iff.mp h).1.symm
      have htsteps : t.steps = steps2 := by rw [ht, hs']
      have hany : t.steps.any (fun r => r.job == p.name && r.step == "ansible backup step") = true := by
        rw [htsteps]
        exact step_manageL_any s.jobs s.steps p.name "ansible backup step" c steps2 hm
      rw [stepStage_char p t c hsql]
      have hm2 : step_manageL t.jobs t.steps p.name "ansible backup step" c
          = .ok (t.steps.map (fun r =>
              if r.job == p.name && r.step == "ansible backup step" then ⟨r.job, r.step, c⟩ else r)) := by
        unfold step_manageL
        rw [if_pos hany]
      rw [hm2]

theorem stepStage_err_rerun (p : Params) (s s' : Server) (e : PyErr)
    (h : stepStage p s = (s', .error e)) (t : Server) (htst : t.steps = s.steps)
    (htj : t.jobs = s.jobs) : (stepStage p t).2 = .error e := by
  cases hsql : backup_step_sql p.incl (effExclude p) p.per_database p.rotate p.ty p.path with
  | error e2 =>
    rw [stepStage_sqlerr p s e2 hsql] at h
    have he : e2 = e := by
      have := (Prod.ext_iff.mp h).2
      simpa using this
    rw [stepStage_sqlerr p t e2 hsql, he]
  | ok c =>
    rw [stepStage_char p s c hsql] at h
    cases hm : step_manageL s.jobs s.steps p.name "ansible backup step" c with
    | error e2 =>
      rw [hm] at h
      have he : e2 = e := by
        have := (Prod.ext_iff.mp h).2
        simpa using this
      rw [stepStage_char p t c hsql]
      have hm2 : step_manageL t.jobs t.steps p.name "ansible backup step" c = .error e2 := by
        rw [htst, htj]
        exact hm
      rw [hm2, he]
    | ok steps2 =>
      rw [hm] at h
      exact absurd (Prod.ext_iff.mp h).2 (by simp)

theorem schedStage_pre_err (p : Params) (s : Server) (e : PyErr)
    (h : schedule_exists s.schedules (schedule_types p.schedule_type)
      p.schedule_interval p.schedule_start_time = .error e) :
    schedStage p s = (s, .error e) := by
  unfold schedStage
  dsimp only
  rw [h]

theorem schedStage_pre_true (p : Params) (s : Server)
    (h : schedule_exists s.schedules (schedule_types p.schedule_type)
      p.schedule_interval p.schedule_start_time = .ok true) :
    schedStage p s = (s, .ok false) := by
  unfold schedStage
  dsimp only
  rw [h]

theorem schedStage_pre_false_state (p : Params) (s : Server)
    (h : schedule_exists s.schedules (schedule_types p.schedule_type)
      p.schedule_interval p.schedule_start_time = .ok false) :
    (schedStage p s).1 = { s with schedules := updSched (schedule_types p.schedule_type) p.schedule_interval p.schedule_start_time s.schedules } := by
  unfold schedStage
  dsimp only
  rw [h]
  dsimp only
  cases hpost : schedule_exists
      (updSched (schedule_types p.schedule_type) p.schedule_interval p.schedule_start_time s.schedules)
      (schedule_types p.schedule_type) p.schedule_interval p.schedule_start_time with
  | error e => rfl
  | ok b => rfl

theorem schedStage_pre_false_outcome (p : Params) (s : Server)
    (h : schedule_exists s.schedules (schedule_types p.schedule_type)
      p.schedule_interval p.schedule_start_time = .ok false) :
    (schedStage p s).2 = schedule_exists
      (updSched (schedule_types p.schedule_type) p.schedule_interval p.schedule_start_time s.schedules)
      (schedule_types p.schedule_type) p.schedule_interval p.schedule_start_time := by
  unfold schedStage
  dsimp only
  rw [h]
  dsimp only
  cases hpost : schedule_exists
      (updSched (schedule_types p.schedule_type) p.schedule_interval p.schedule_start_time s.schedules)
      (schedule_types p.schedule_type) p.schedule_interval p.schedule_start_time with
  | error e => rfl
  | ok b => rfl

theorem updSched_any (ty : PyStr) (i : Int) (st : PyStr) (rows : List (String × SchedRow)) :
    (updSched ty i st rows).any (fun q => q.1 == "ansible schedule") = true := by
  unfold updSched
  dsimp only
  split
  · rw [List.any_map]
    have hfun : ((fun q : String × SchedRow => q.1 == "ansible schedule") ∘
        (fun q : String × SchedRow => if q.1 == "ansible schedule"
          then (q.1, (⟨1, digitsToNat ty.val, i, digitsToNat st.val⟩ : SchedRow)) else q))
        = (fun q : String × SchedRow => q.1 == "ansible schedule") := by
      funext q
      by_cases hq : (q.1 == "ansible schedule") = true
      · simp [Function.comp, hq]
      · simp only [Function.comp, Bool.not_eq_true] at hq ⊢
        rw [hq]
        simp [hq]
    rw [hfun]
    assumption
  · simp

theorem updSched_map_fix (ty : PyStr) (i : Int) (st : PyStr)
    (rows : List (String × SchedRow))
    (hall : ∀ q ∈ rows, (if (q.1 == "ansible schedule") = true
        then (q.1, (⟨1, digitsToNat ty.val, i, digitsToNat st.val⟩ : SchedRow)) else q) = q) :
    rows.map (fun q => if q.1 == "ansible schedule"
      then (q.1, (⟨1, digitsToNat ty.val, i, digitsToNat st.val⟩ : SchedRow)) else q) = rows := by
  induction rows with
  | nil => rfl
  | cons q qs ih =>
    simp only [List.map_cons]
    rw [hall q (List.mem_cons_self q qs), ih (fun x hx => hall x (List.mem_cons_of_mem q hx))]

theorem updSched_mem_named (ty : PyStr) (i : Int) (st : PyStr)
    (rows : List (String × SchedRow)) :
    ∀ q ∈ updSched ty i st rows, (q.1 == "ansible schedule") = true →
      q.2 = (⟨1, digitsToNat ty.val, i, digitsToNat st.val⟩ : SchedRow) := by
  intro q hq hq1
  unfold updSched at hq
  dsimp only at hq
  split at hq
  · rw [List.mem_map] at hq
    obtain ⟨x, _, hxq⟩ := hq
    by_cases hx1 : (x.1 == "ansible schedule") = true
    · rw [if_pos hx1] at hxq
      rw [← hxq]
    · rw [if_neg hx1] at hxq
      subst hxq
      exact absurd hq1 hx1
  · rw [List.mem_append] at hq
    rcases hq with hq | hq
    · rename_i hanyr
      exfalso
      exact hanyr (List.any_eq_true.mpr ⟨q, hq, hq1⟩)
    · rw [List.mem_singleton] at hq
      subst hq
      rfl

theorem updSched_idem (ty : PyStr) (i : Int) (st : PyStr) (rows : List (String × SchedRow)) :
    updSched ty i st (updSched ty i st rows) = updSched ty i st rows := by
  have hany := updSched_any ty i st rows
  have hnamed := updSched_mem_named ty i st rows
  generalize hR : updSched ty i st rows = R at hany hnamed ⊢
  show updSched ty i st R = R
  unfold updSched
  dsimp only
  rw [if_pos hany]
  apply updSched_map_fix
  intro q hq
  by_cases hq1 : (q.1 == "ansible schedule") = true
  · rw [if_pos hq1]
    have h2 := hnamed q hq hq1
    rw [← h2]
  · rw [if_neg hq1]

theorem schedule_exists_true_any (rows : List (String × SchedRow)) (ty : PyStr)
    (i : Int) (st : PyStr) (h : schedule_exists rows ty i st = .ok true) :
    rows.any (fun q => q.1 == "ansible schedule") = true := by
  unfold schedule_exists at h
  dsimp only at h
  split at h
  · rename_i hlen
    have hfl : (rows.filter (fun q => q.1 == "ansible schedule")) ≠ [] := by
      intro hnil
      rw [List.length_map, hnil] at hlen
      simp at hlen
    obtain ⟨q, hq⟩ := List.exists_mem_of_ne_nil _ hfl
    have := List.mem_filter.mp hq
    exact List.any_eq_true.mpr ⟨q, this.1, this.2⟩
  · exact absurd h (by simp)

theorem schedStage_ok_row_any (p : Params) (s s' : Server) (b : Bool)
    (h : schedStage p s = (s', .ok b)) :
    s'.schedules.any (fun q => q.1 == "ansible schedule") = true := by
  cases hpre : schedule_exists s.schedules (schedule_types p.schedule_type)
      p.schedule_interval p.schedule_start_time with
  | error e =>
    rw [schedStage_pre_err p s e hpre] at h
    exact absurd (Prod.ext_iff.mp h).2 (by simp)
  | ok bv =>
    cases bv with
    | true =>
      rw [schedStage_pre_true p s hpre] at h
      have hs' : s' = s := (Prod.ext_iff.mp h).1.symm
      rw [hs']
      exact schedule_exists_true_any s.schedules _ _ _ hpre
    | false =>
      have hst := schedStage_pre_false_state p s hpre
      have hs' : s' = { s with schedules := updSched (schedule_types p.schedule_type) p.schedule_interval p.schedule_start_time s.schedules } := by
        rw [← hst, h]
      rw [hs']
      exact updSched_any _ _ _ _

theorem schedStage_rerun_ok (p : Params) (s s' : Server) (b : Bool)
    (h : schedStage p s = (s', .ok b)) (t : Server) (ht : t.schedules = s'.schedules) :
    (schedStage p t).2 = .ok false := by
  cases hpre : schedule_exists s.schedules (schedule_types p.schedule_type)
      p.schedule_interval p.schedule_start_time with
  | error e =>
    rw [schedStage_pre_err p s e hpre] at h
    exact absurd (Prod.ext_iff.mp h).2 (by simp)
  | ok bv =>
    cases bv with
    | true =>
      rw [schedStage_pre_true p s hpre] at h
      have hs' : s' = s := (Prod.ext_iff.mp h).1.symm
      have hpret : schedule_exists t.schedules (schedule_types p.schedule_type)
          p.schedule_interval p.schedule_start_time = .ok true := by
        rw [ht, hs']
        exact hpre
      rw [schedStage_pre_true p t hpret]
    | false =>
      have hst := schedStage_pre_false_state p s hpre
      have hout := schedStage_pre_false_outcome p s hpre
      have hs' : s' = { s with schedules := updSched (schedule_types p.schedule_type) p.schedule_interval p.schedule_start_time s.schedules } := by
        rw [← hst, h]
      have hpostb : schedule_exists
          (updSched (schedule_types p.schedule_type) p.schedule_interval p.schedule_start_time s.schedules)
          (schedule_types p.schedule_type) p.schedule_interval p.schedule_start_time = .ok b := by
        rw [← hout, h]
      have htR : t.schedules = updSched (schedule_types p.schedule_type) p.schedule_interval p.schedule_start_time s.schedules := by
        rw [ht, hs']
      cases b with
      | true =>
        have hpret : schedule_exists t.schedules (schedule_types p.schedule_type)
            p.schedule_interval p.schedule_start_time = .ok true := by
          rw [htR]
          exact hpostb
        rw [schedStage_pre_true p t hpret]
      | false =>
        have hpret : schedule_exists t.schedules (schedule_types p.schedule_type)
            p.schedule_interval p.schedule_start_time = .ok false := by
          rw [htR]
          exact hpostb
        rw [schedStage_pre_false_outcome p t hpret, htR, updSched_idem]
        exact hpostb

theorem schedStage_rerun_err (p : Params) (s s' : Server) (e : PyErr)
    (h : schedStage p s = (s', .error e)) (t : Server) (ht : t.schedules = s'.schedules) :
    (schedStage p t).2 = .error e := by
  cases hpre : schedule_exists s.schedules (schedule_types p.schedule_type)
      p.schedule_interval p.schedule_start_time with
  | error e2 =>
    rw [schedStage_pre_err p s e2 hpre] at h
    have hs' : s' = s := (Prod.ext_iff.mp h).1.symm
    have he : e2 = e := by
      have := (Prod.ext_iff.mp h).2
      simpa using this
    have hpret : schedule_exists t.schedules (schedule_types p.schedule_type)
        p.schedule_interval p.schedule_start_time = .error e2 := by
      rw [ht, hs']
      exact hpre
    rw [schedStage_pre_err p t e2 hpret, he]
  | ok bv =>
    cases bv with
    | true =>
      rw [schedStage_pre_true p s hpre] at h
      exact absurd (Prod.ext_iff.mp h).2 (by simp)
    | false =>
      have hst := schedStage_pre_false_state p s hpre
      have hout := schedStage_pre_false_outcome p s hpre
      have hs' : s' = { s with schedules := updSched (schedule_types p.schedule_type) p.schedule_interval p.schedule_start_time s.schedules } := by
        rw [← hst, h]
      have hposte : schedule_exists
          (updSched (schedule_types p.schedule_type) p.schedule_interval p.schedule_start_time s.schedules)
          (schedule_types p.schedule_type) p.schedule_interval p.schedule_start_time = .error e := by
        rw [← hout, h]
      have hpret : schedule_exists t.schedules (schedule_types p.schedule_type)
          p.schedule_interval p.schedule_start_time = .error e := by
        rw [ht, hs']
        exact hposte
      rw [schedStage_pre_err p t e hpret]

theorem attachStage_ok_attached (p : Params) (s s' : Server) (b : Bool)
    (h : attachStage p s = (s', .ok b)) :
    schedule_attached s'.attachments p.name = true := by
  unfold attachStage at h
  split at h
  · rename_i hatt
    have hs' : s' = s := (Prod.ext_iff.mp h).1.symm
    rw [hs']
    exact hatt
  · split at h
    · have hs' : s' = { s with attachments := s.attachments ++ [(p.name, "ansible schedule")] } :=
        (Prod.ext_iff.mp h).1.symm
      rw [hs']
      unfold schedule_attached
      simp
    · exact absurd (Prod.ext_iff.mp h).2 (by simp)

theorem attachStage_err (p : Params) (s s' : Server) (e : PyErr)
    (h : attachStage p s = (s', .error e)) :
    s' = s ∧ schedule_attached s.attachments p.name = false
      ∧ (s.jobs.contains p.name = false
          ∨ s.schedules.any (fun q => q.1 == "ansible schedule") = false) := by
  unfold attachStage at h
  split at h
  · exact absurd (Prod.ext_iff.mp h).2 (by simp)
  · split at h
    · exact absurd (Prod.ext_iff.mp h).2 (by simp)
    · rename_i hatt hcond
      rw [Bool.not_eq_true, Bool.and_eq_false_iff] at hcond
      refine ⟨(Prod.ext_iff.mp h).1.symm, ?_, hcond⟩
      rw [Bool.not_eq_true] at hatt
      exact hatt

theorem attachStage_rerun_ok (p : Params) (t : Server)
    (h : schedule_attached t.attachments p.name = true) :
    attachStage p t = (t, .ok false) := by
  unfold attachStage
  rw [if_pos h]

theorem attachStage_err_eval (p : Params) (t : Server)
    (hatt : schedule_attached t.attachments p.name = false)
    (hjob : t.jobs.contains p.name = false) :
    attachStage p t = (t, .error .sqlError) := by
  unfold attachStage
  rw [hatt]
  simp only [Bool.false_eq_true, if_false]
  rw [hjob]
  simp

theorem pymain_eq (p : Params) (s : Server) (hv : validChoices p = true) :
    pymain p s =
      match jobStage p s with
      | (s1, .error e) => (s1, .error e)
      | (s1, .ok c1) =>
        match stepStage p s1 with
        | (s2, .error e) => (s2, .error e)
        | (s2, .ok c2) =>
          match schedStage p s2 with
          | (s3, .error e) => (s3, .error e)
          | (s3, .ok c3) =>
            match attachStage p s3 with
            | (s4, .error e) => (s4, .error e)
            | (s4, .ok c4) => (s4, .ok ⟨c1 || c2 || c3 || c4, p.name, p.state⟩) := by
  unfold pymain
  rw [hv]
  rfl

theorem pymain_invalid (p : Params) (s : Server) (hv : validChoices p = false) :
    pymain p s = (s, .error (.failJson "value of parameter is not in choices")) := by
  unfold pymain
  rw [hv]
  rfl

/-- C1 (amended): for every configuration and server state, when the second
of two successive reconciliation runs completes successfully it reports
`changed = false`; `changed = true` can therefore be reported at most by the
first run.  (As stated, the claim fails only because a run can abort with an
error instead of reporting a result; see the counterexample.) -/
theorem c1_second_completed_run_reports_no_change (p : Params) (s0 : Server)
    (r : RunResult) (h : (pymain p (pymain p s0).1).2 = .ok r) :
    r.changed = false := by
  by_cases hv : validChoices p = true
  case neg =>
    rw [Bool.not_eq_true] at hv
    rw [pymain_invalid p (pymain p s0).1 hv] at h
    simp at h
  case pos =>
  rcases hJ : jobStage p s0 with ⟨u1, o1⟩
  cases o1 with
  | error e =>
    have hu1 : u1 = s0 := jobStage_err_state p s0 u1 e hJ
    have h1 : pymain p s0 = (u1, .error e) := by
      rw [pymain_eq p s0 hv, hJ]
    rw [h1] at h
    dsimp only at h
    rw [hu1, h1] at h
    simp at h
  | ok c1 =>
  rcases hS : stepStage p u1 with ⟨u2, o2⟩
  have hfS := stepStage_frame p u1
  rw [hS] at hfS
  dsimp only at hfS
  cases o2 with
  | error e =>
    have hu2 : u2 = u1 := stepStage_err_state p u1 u2 e hS
    have h1 : pymain p s0 = (u2, .error e) := by
      rw [pymain_eq p s0 hv, hJ]
      dsimp only
      rw [hS]
    rw [h1] at h
    dsimp only at h
    have hJ2 : jobStage p u2 = (u2, .ok false) :=
      jobStage_rerun p s0 u1 c1 hJ u2 (by rw [hu2])
    have h2 : (pymain p u2).2 = .error e := by
      rw [pymain_eq p u2 hv, hJ2]
      dsimp only
      rw [hu2, hS]
    rw [h2] at h
    simp at h
  | ok c2 =>
  rcases hC : schedStage p u2 with ⟨u3, o3⟩
  have hfC := schedStage_frame p u2
  rw [hC] at hfC
  dsimp only at hfC
  cases o3 with
  | error e =>
    have h1 : pymain p s0 = (u3, .error e) := by
      rw [pymain_eq p s0 hv, hJ]
      dsimp only
      rw [hS]
      dsimp only
      rw [hC]
    have hJ2 : jobStage p u3 = (u3, .ok false) :=
      jobStage_rerun p s0 u1 c1 hJ u3 (by rw [hfC.1, hfS.1])
    rcases hS2 : stepStage p u3 with ⟨t2, o2x⟩
    have hfS2 := stepStage_frame p u3
    rw [hS2] at hfS2
    dsimp only at hfS2
    have ho2x : o2x = .ok false := by
      have hre := stepStage_ok_rerun p u1 u2 c2 hS u3 (by rw [hfC.2.1])
      rw [hS2] at hre
      exact hre
    subst ho2x
    rcases hC2 : schedStage p t2 with ⟨t3, o3x⟩
    have ho3x : o3x = .error e := by
      have hre := schedStage_rerun_err p u2 u3 e hC t2 (by rw [hfS2.2.1])
      rw [hC2] at hre
      exact hre
    subst ho3x
    have h2 : (pymain p u3).2 = .error e := by
      rw [pymain_eq p u3 hv, hJ2]
      dsimp only
      rw [hS2]
      dsimp only
      rw [hC2]
    rw [h1] at h
    dsimp only at h
    rw [h2] at h
    simp at h
  | ok c3 =>
  rcases hA : attachStage p u3 with ⟨u4, o4⟩
  have hfA := attachStage_frame p u3
  rw [hA] at hfA
  dsimp only at hfA
  cases o4 with
  | error e =>
    obtain ⟨hu4, hnat, hcond⟩ := attachStage_err p u3 u4 e hA
    have hrowany : u3.schedules.any (fun q => q.1 == "ansible schedule") = true :=
      schedStage_ok_row_any p u2 u3 c3 hC
    have hjobs : u3.jobs.contains p.name = false := by
      rcases hcond with hc | hc
      · exact hc
      · rw [hrowany] at hc
        cases hc
    have h1 : pymain p s0 = (u4, .error e) := by
      rw [pymain_eq p s0 hv, hJ]
      dsimp only
      rw [hS]
      dsimp only
      rw [hC]
      dsimp only
      rw [hA]
    have hJ2 : jobStage p u4 = (u4, .ok false) :=
      jobStage_rerun p s0 u1 c1 hJ u4 (by rw [hu4, hfC.1, hfS.1])
    rcases hS2 : stepStage p u4 with ⟨t2, o2x⟩
    have hfS2 := stepStage_frame p u4
    rw [hS2] at hfS2
    dsimp only at hfS2
    have ho2x : o2x = .ok false := by
      have hre := stepStage_ok_rerun p u1 u2 c2 hS u4 (by rw [hu4, hfC.2.1])
      rw [hS2] at hre
      exact hre
    subst ho2x
    rcases hC2 : schedStage p t2 with ⟨t3, o3x⟩
    have hfC2 := schedStage_frame p t2
    rw [hC2] at hfC2
    dsimp only at hfC2
    have ho3x : o3x = .ok false := by
      have hre := schedStage_rerun_ok p u2 u3 c3 hC t2 (by rw [hfS2.2.1, hu4])
      rw [hC2] at hre
      exact hre
    subst ho3x
    have hattT : schedule_attached t3.attachments p.name = false := by
      rw [hfC2.2.2, hfS2.2.2, hu4]
      exact hnat
    have hjobsT : t3.jobs.contains p.name = false := by
      rw [hfC2.1, hfS2.1, hu4]
      exact hjobs
    have hA2 : attachStage p t3 = (t3, .error .sqlError) := attachStage_err_eval p t3 hattT hjobsT
    have h2 : (pymain p u4).2 = .error .sqlError := by
      rw [pymain_eq p u4 hv, hJ2]
      dsimp only
      rw [hS2]
      dsimp only
      rw [hC2]
      dsimp only
      rw [hA2]
    rw [h1] at h
    dsimp only at h
    rw [h2] at h
    simp at h
  | ok c4 =>
    have h1 : pymain p s0 = (u4, .ok ⟨c1 || c2 || c3 || c4, p.name, p.state⟩) := by
      rw [pymain_eq p s0 hv, hJ]
      dsimp only
      rw [hS]
      dsimp only
      rw [hC]
      dsimp only
      rw [hA]
    have hJ2 : jobStage p u4 = (u4, .ok false) :=
      jobStage_rerun p s0 u1 c1 hJ u4 (by rw [hfA.1, hfC.1, hfS.1])
    rcases hS2 : stepStage p u4 with ⟨t2, o2x⟩
    have hfS2 := stepStage_frame p u4
    rw [hS2] at hfS2
    dsimp only at hfS2
    have ho2x : o2x = .ok false := by
      have hre := stepStage_ok_rerun p u1 u2 c2 hS u4 (by rw [hfA.2.1, hfC.2.1])
      rw [hS2] at hre
      exact hre
    subst ho2x
    rcases hC2 : schedStage p t2 with ⟨t3, o3x⟩
    have hfC2 := schedStage_frame p t2
    rw [hC2] at hfC2
    dsimp only at hfC2
    have ho3x : o3x = .ok false := by
      have hre := schedStage_rerun_ok p u2 u3 c3 hC t2 (by rw [hfS2.2.1, hfA.2.2])
      rw [hC2] at hre
      exact hre
    subst ho3x
    have hattT : schedule_attached t3.attachments p.name = true := by
      rw [hfC2.2.2, hfS2.2.2]
      exact attachStage_ok_attached p u3 u4 c4 hA
    have hA2 : attachStage p t3 = (t3, .ok false) := attachStage_rerun_ok p t3 hattT
    have h2 : (pymain p u4).2 = .ok ⟨false, p.name, p.state⟩ := by
      rw [pymain_eq p u4 hv, hJ2]
      dsimp only
      rw [hS2]
      dsimp only
      rw [hC2]
      dsimp only
      rw [hA2]
      rfl
    rw [h1] at h
    dsimp only at h
    rw [h2] at h
    have hr := (Except.ok.injEq _ _).mp h
    rw [← hr]

/-- C1 (counterexample): with the default configuration but a `once`
schedule and a fresh server, the first run aborts with a `TypeError` after
mutating the server (the probe rebinds `interval` to a string and then
formats it with `%d`), and the second run aborts the same way instead of
reporting `changed = false`; the claim as stated therefore fails at this
input. -/
theorem c1_counterexample_once_schedule_second_run_errors :
    (pymain pOnce (pymain pOnce srvEmpty).1).2 = .error .typeError := by decide

/-- Witness for the amended C1 theorem at the defaulted daily
configuration on a fresh server: the second run completes and reports
`changed = false`. -/
theorem c1_second_completed_run_witness :
    (pymain pDefault (pymain pDefault srvEmpty).1).2
        = .ok ⟨false, "nightly", lit "present"⟩
      ∧ (⟨false, "nightly", lit "present"⟩ : RunResult).changed = false :=
  ⟨by decide, c1_second_completed_run_reports_no_change pDefault srvEmpty
    ⟨false, "nightly", lit "present"⟩ (by decide)⟩

/-- C2 (code bug): the generated script's per-row file name expression.  At
`rotate = 0` (rotation disabled, the default) the generator emits the
date-stamped expression, and at `rotate = 1` it emits the bare database
name — exactly the reverse of the documented behaviour (`rotate > 0` ⇒
date-stamped file names). -/
theorem c2_rotate_zero_appends_date_stamp :
    backup_step_sql ["A"] [] true 0 "full" "/b"
        = .ok (scriptTemplate ("name IN (" ++ quoteNameLit "A" ++ ")")
            (sqS ++ "/b/" ++ sqS ++ " + @name")
            ("@name + " ++ sqS ++ "_" ++ sqS ++ " + @fileDate"))
      ∧ backup_step_sql ["A"] [] true 1 "full" "/b"
        = .ok (scriptTemplate ("name IN (" ++ quoteNameLit "A" ++ ")")
            (sqS ++ "/b/" ++ sqS ++ " + @name") "@name") := by
  constructor
  · decide
  · decide

/-- C3: the step probe returns true if and only if the stored step command
text, after the probe's normalization (per-line trim, empty-line drop,
newline re-join), equals the canonical script produced by the generator for
the same configuration.  Both sides are in fact always false — the
canonical text contains carriage returns and indented lines that the
normalization strips, so the substring test can never succeed and the
normalized text can never equal the canonical text — and the equivalence
holds. -/
theorem c3_step_probe_iff_normalized_equality (steps : List JobStepRow) (job : String)
    (incl excl : List String) (pdb : Bool) (rot : Int) (ty path : String) :
    (backup_step_exists steps job incl excl pdb rot ty path = .ok true)
      ↔ (∃ canonical, backup_step_sql incl excl pdb rot ty path = .ok canonical
          ∧ String.mk (step_resultsL steps job "ansible backup step") = canonical) := by
  constructor
  · intro hp
    exact absurd hp (backup_step_exists_ne_ok_true steps job incl excl pdb rot ty path)
  · rintro ⟨c, hsql, heq⟩
    exfalso
    have hcan := canonical_hasNlSp incl excl pdb rot ty path c hsql
    have hhay := result_filter_join_no_nlsp
      (String.intercalate "\n" (stepRows steps job "ansible backup step")).data
    have hdata : c.data = step_resultsL steps job "ansible backup step" := by
      rw [← heq]
    rw [hdata] at hcan
    unfold step_resultsL at hcan
    rw [hhay] at hcan
    cases hcan

/-- C4 (code bug): with a stored schedule row `(enabled 1, freq_type 1,
interval 0, start 0)` and the requested type `once`, the probe raises a
`TypeError` (at `'%d' % '0'`) for requested interval 5 and for requested
interval 1 alike, instead of normalizing the interval to the sentinel 0 and
comparing. -/
theorem c4_once_schedule_probe_raises_type_error :
    schedule_exists [("ansible schedule", ⟨1, 1, 0, 0⟩)] (lit "1") 5 (lit "000000")
        = .error .typeError
      ∧ schedule_exists [("ansible schedule", ⟨1, 1, 0, 0⟩)] (lit "1") 1 (lit "000000")
        = .error .typeError := by
  constructor
  · decide
  · decide

/-- C5 (code bug): against a stored daily schedule row with start time 0,
the caller-supplied (non-interned) start time "000000" is normalized by
`lstrip('0')` to the empty string — the identity check against the literal
fails — and the probe reports a mismatch, while the interned default
"000000" is normalized to "0" and matches; "013000" is handled correctly. -/
theorem c5_runtime_zero_start_time_not_matched :
    schedule_exists [("ansible schedule", ⟨1, 4, 1, 0⟩)] (lit "4") 1 ⟨"000000", false⟩
        = .ok false
      ∧ schedule_exists [("ansible schedule", ⟨1, 4, 1, 0⟩)] (lit "4") 1 (lit "000000")
        = .ok true
      ∧ schedule_exists [("ansible schedule", ⟨1, 4, 1, 13000⟩)] (lit "4") 1 ⟨"013000", false⟩
        = .ok true := by
  refine ⟨by decide, by decide, by decide⟩

/-- C6 (code bug): with the job already on the server and the requested
state `absent` (a run-time string, never identical to the in-module
literal), the run does not abort: it completes with `exit_json`
(`changed = true`) and mutates the server (a step, a schedule and an
attachment are created). -/
theorem c6_absent_state_does_not_abort_and_mutates :
    (pymain pAbsent srvJobOnly).2 = .ok ⟨true, "nightly", ⟨"absent", false⟩⟩
      ∧ (pymain pAbsent srvJobOnly).1.steps.length = 1
      ∧ (pymain pAbsent srvJobOnly).1.schedules.length = 1
      ∧ (pymain pAbsent srvJobOnly).1.attachments.length = 1 := by
  refine ⟨by decide, by decide, by decide, by decide⟩

/-- C7 (counterexample): a fresh server with the defaulted configuration.
The job segment creates the job; the step segment issues its create
mutation (a step row appears) and the immediate re-probe still reports a
mismatch (the segment reports `changed = false`); yet the run completes
successfully through `exit_json` instead of failing — the failed
convergence is silently swallowed (the `fail_json` branches are commented
out in the source). -/
theorem c7_counterexample_step_mismatch_swallowed :
    jobStage pDefault srvEmpty = (⟨["nightly"], [], [], []⟩, .ok true)
      ∧ (stepStage pDefault ⟨["nightly"], [], [], []⟩).2 = .ok false
      ∧ (stepStage pDefault ⟨["nightly"], [], [], []⟩).1.steps.length = 1
      ∧ (pymain pDefault srvEmpty).2 = .ok ⟨true, "nightly", lit "present"⟩ := by
  refine ⟨by decide, by decide, by decide, by decide⟩

/-- C7 (amended): when the step segment issues its create/update mutation
(the pre-probe reported a mismatch) and completes without error, it reports
`changed = false` for the step rather than failing: the re-probe mismatch
is never turned into an error, so the run continues and can finish
successfully. -/
theorem c7_amended_step_mismatch_reported_unchanged (p : Params) (s s2 : Server) (b : Bool)
    (hpre : backup_step_exists s.steps p.name p.incl (effExclude p) p.per_database
      p.rotate p.ty p.path = .ok false)
    (hstage : stepStage p s = (s2, .ok b)) : b = false :=
  stepStage_ok_false p s s2 b hstage

/-- Witness for the amended C7 theorem: on a server carrying only the job,
the pre-probe mismatches, the stage completes with `.ok false`, and the
conclusion instantiates to `false = false`. -/
theorem c7_amended_witness :
    backup_step_exists srvJobOnly.steps pDefault.name pDefault.incl (effExclude pDefault)
        pDefault.per_database pDefault.rotate pDefault.ty pDefault.path = .ok false
      ∧ stepStage pDefault srvJobOnly = ((stepStage pDefault srvJobOnly).1, .ok false)
      ∧ (false : Bool) = false :=
  ⟨by decide, by decide,
    c7_amended_step_mismatch_reported_unchanged pDefault srvJobOnly
      ((stepStage pDefault srvJobOnly).1) false (by decide) (by decide)⟩

/-- C10 (implicit): the script generator ignores its backup-kind argument —
for every destination path, per-database flag, rotate value and
include/exclude lists, the generated text (or failure) for kind `full` and
kind `logs` is identical; a transaction-log backup is never emitted. -/
theorem c10_generator_ignores_backup_kind (incl excl : List String) (pdb : Bool)
    (rot : Int) (path : String) :
    backup_step_sql incl excl pdb rot "full" path
      = backup_step_sql incl excl pdb rot "logs" path := rfl

/-- C8: the generated filter clause is `name IN (quoted include set)`
whenever the include list is non-empty — and the exclude list is then
ignored (the result does not depend on it) — is `name NOT IN (quoted
exclude set)` when the include list is empty, and the generator fails with
the missing-databases exception exactly when the selected set is empty,
i.e. when both lists are empty. -/
theorem c8_filter_clause_and_empty_selection (incl excl : List String) (pdb : Bool)
    (rot : Int) (ty path : String) :
    (incl ≠ [] → ∀ excl2, backup_step_sql incl excl2 pdb rot ty path
        = .ok (scriptTemplate ("name IN (" ++ joinComma (incl.map quoteNameLit) ++ ")")
            (filePathExpr pdb path) (fileNameExpr rot)))
      ∧ (incl = [] → excl ≠ [] → backup_step_sql incl excl pdb rot ty path
        = .ok (scriptTemplate ("name NOT IN (" ++ joinComma (excl.map quoteNameLit) ++ ")")
            (filePathExpr pdb path) (fileNameExpr rot)))
      ∧ ((∃ e, backup_step_sql incl excl pdb rot ty path = .error e) ↔ incl = [] ∧ excl = []) := by
  have hIN : ∀ excl2 : List String, incl ≠ [] → backup_step_sql incl excl2 pdb rot ty path
      = .ok (scriptTemplate ("name IN (" ++ joinComma (incl.map quoteNameLit) ++ ")")
          (filePathExpr pdb path) (fileNameExpr rot)) := by
    intro excl2 hne
    have hlen : incl.length > 0 := List.length_pos.mpr hne
    unfold backup_step_sql
    dsimp only
    rw [if_pos hlen, if_pos hlen, List.length_map]
    have h0 : (incl.length == 0) = false := by
      simp only [beq_eq_false_iff_ne, ne_eq]
      omega
    rw [h0]
    simp
  have hNOT : incl = [] → excl ≠ [] → backup_step_sql incl excl pdb rot ty path
      = .ok (scriptTemplate ("name NOT IN (" ++ joinComma (excl.map quoteNameLit) ++ ")")
          (filePathExpr pdb path) (fileNameExpr rot)) := by
    intro hin hexne
    subst hin
    unfold backup_step_sql
    dsimp only
    have hc : ¬(([] : List String).length > 0) := by decide
    rw [if_neg hc, if_neg hc, List.length_map]
    have h0 : (excl.length == 0) = false := by
      simp only [beq_eq_false_iff_ne, ne_eq, List.length_eq_zero]
      exact hexne
    rw [h0]
    simp
  have hERR : incl = [] → excl = [] → backup_step_sql incl excl pdb rot ty path
      = .error (.missingDatabases "missing databases: ") := by
    intro hin hex
    subst hin
    subst hex
    rfl
  refine ⟨fun hne excl2 => hIN excl2 hne, hNOT, ?_, ?_⟩
  · rintro ⟨e, he⟩
    by_cases hin : incl = []
    · by_cases hex : excl = []
      · exact ⟨hin, hex⟩
      · rw [hNOT hin hex] at he
        simp at he
    · rw [hIN excl hin] at he
      simp at he
  · rintro ⟨hin, hex⟩
    exact ⟨.missingDatabases "missing databases: ", hERR hin hex⟩

/-- Witness for C8: include `["A","B"]` with exclude `["C"]` produces the
`IN` clause ignoring the exclude set (swapping the exclude list changes
nothing), and the generator fails exactly on two empty lists. -/
theorem c8_filter_clause_witness :
    backup_step_sql ["A", "B"] ["C"] true 0 "full" "/b"
        = .ok (scriptTemplate ("name IN (" ++ joinComma (["A", "B"].map quoteNameLit) ++ ")")
            (filePathExpr true "/b") (fileNameExpr 0))
      ∧ ((∃ e, backup_step_sql ([] : List String) ([] : List String) true 0 "full" "/b" = .error e)
          ↔ ([] : List String) = [] ∧ ([] : List String) = []) :=
  ⟨(c8_filter_clause_and_empty_selection ["A", "B"] ["C"] true 0 "full" "/b").1 (by decide) ["C"],
    (c8_filter_clause_and_empty_selection [] [] true 0 "full" "/b").2.2⟩

/-- C9: bracket-style quoting (style token `[` or `]`) wraps the name in
brackets doubling every embedded `]`; literal-style quoting (the apostrophe
token) produces a national-character string literal doubling every embedded
apostrophe; any other style token fails with the unsupported-style
exception. -/
theorem c9_quote_styles (name qc : String) :
    quoteName name "[" = .ok ("[" ++ pyReplace1 name ']' "]]" ++ "]")
      ∧ quoteName name "]" = .ok ("[" ++ pyReplace1 name ']' "]]" ++ "]")
      ∧ quoteName name sqS = .ok ("N" ++ sqS ++ pyReplace1 name sqChar (sqS ++ sqS) ++ sqS)
      ∧ (qc ≠ "[" → qc ≠ "]" → qc ≠ sqS →
          quoteName name qc = .error (.unsupportedQuoteChar
            ("Unsupported quote_char " ++ qc ++ ", must be [ or ] or " ++ sqS))) := by
  refine ⟨rfl, rfl, ?_, ?_⟩
  · unfold quoteName
    rw [if_neg (by decide), if_pos (by decide)]
  · intro h1 h2 h3
    unfold quoteName
    rw [if_neg ?hc1, if_neg ?hc2]
    case hc1 =>
      simp only [Bool.or_eq_true, beq_iff_eq, not_or]
      exact ⟨h1, h2⟩
    case hc2 =>
      simp only [beq_iff_eq]
      exact h3

/-- Witness for C9 at a name containing a closing bracket and an
unsupported style token `x`. -/
theorem c9_quote_styles_witness :
    quoteName "a]b" "[" = .ok ("[" ++ pyReplace1 "a]b" ']' "]]" ++ "]")
      ∧ quoteName "a]b" "x" = .error (.unsupportedQuoteChar
          ("Unsupported quote_char " ++ "x" ++ ", must be [ or ] or " ++ sqS)) :=
  ⟨(c9_quote_styles "a]b" "x").1,
    (c9_quote_styles "a]b" "x").2.2.2 (by decide) (by decide) (by decide)⟩
